import Mathlib

/-!
Verification of the `binary_bakery` decoder (`decoder.h`).

The word sequence is modelled as a `List Nat` of 64-bit words (each word
below 2^64 in intended use); bytes inside a word follow the little-endian
layout the decoder's `bit_cast` punning relies on: byte `i` of word `w` is
`w / 256 ^ i % 256`.  Fallible operations (`throw`, failing
`static_assert`) are modelled with `Option`.
-/

namespace Inliner

/-- The decoded `inliner::header` struct.  Padding fields carry no
information and are omitted; all fields are natural numbers standing for
the corresponding unsigned machine fields. -/
structure Header where
  type : Nat := 0
  bpp : Nat := 0
  bit_count : Nat := 0
  width : Nat := 0
  height : Nat := 0
  color0 : Nat := 0
  color1 : Nat := 0
deriving DecidableEq, Repr

/-- `inliner::get_header`: word 0 yields `type` (byte 0), `bpp` (byte 1)
and `bit_count` (bytes 4..7); word 1 is read only when `type > 0` and
yields `width`/`height` (low two 16-bit lanes); word 2 is read only when
`type = 2` and yields `color0`/`color1` (the two 32-bit lanes).  Fields
not overwritten keep their zero default, as in the C++ struct. -/
def get_header (source : List Nat) : Header :=
  let w0 := source.getD 0 0
  let t := w0 % 256
  let b := w0 / 256 % 256
  let bits := w0 / 2 ^ 32 % 2 ^ 32
  let wh :=
    if t > 0 then
      let w1 := source.getD 1 0
      (w1 % 2 ^ 16, w1 / 2 ^ 16 % 2 ^ 16)
    else (0, 0)
  let cc :=
    if t = 2 then
      let w2 := source.getD 2 0
      (w2 % 2 ^ 32, w2 / 2 ^ 32 % 2 ^ 32)
    else (0, 0)
  { type := t, bpp := b, bit_count := bits,
    width := wh.1, height := wh.2, color0 := cc.1, color1 := cc.2 }

/-- `inliner::is_image`: byte 0 of word 0 equals 1 or 2. -/
def is_image (source : List Nat) : Bool :=
  let t := source.getD 0 0 % 256
  t == 1 || t == 2

/-- `inliner::get_element_count(const header&)`: throws on `type = 0`
(modelled as `none`), otherwise `width * height`. -/
def get_element_count (head : Header) : Option Nat :=
  if head.type = 0 then none
  else some (head.width * head.height)

/-- `inliner::get_element_count<user_type>(const header&)` with
`s = sizeof(user_type)`: delegates to the type-agnostic count for
`type = 2`, otherwise `(bit_count / 8) / s` in truncating integer
division. -/
def get_element_count_typed (s : Nat) (head : Header) : Option Nat :=
  if head.type = 2 then get_element_count head
  else some (head.bit_count / 8 / s)

/-- `inliner::detail::get_byte_count_from_bit_count`. -/
def get_byte_count_from_bit_count (bit_count : Nat) : Nat :=
  let byte_count := bit_count / 8
  if bit_count % 8 > 0 then byte_count + 1 else byte_count

/-- The four bytes of a 32-bit packed color in stored (lowest address
first, little-endian) order: the `bit_cast` to `color_type<4>`. -/
def color_bytes4 (c : Nat) : List Nat :=
  [c % 256, c / 256 % 256, c / 65536 % 256, c / 16777216 % 256]

/-- `inliner::detail::get_sized_color_pair<bpp>`: the first `bpp` stored
bytes of each packed color. -/
def get_sized_color_pair (bpp : Nat) (head : Header) : List Nat × List Nat :=
  ((color_bytes4 head.color0).take bpp, (color_bytes4 head.color1).take bpp)

/-- `inliner::detail::reconstruct`: element `i` is `color1` when the bit
selected by mask `1 <<< (7 - i % 8)` in source byte `i / 8` is set,
otherwise `color0`.  The output element type is abstract, exactly as the
C++ template parameter. -/
def reconstruct {α : Type} (element_count : Nat) (source : List Nat)
    (color0 color1 : α) : List α :=
  (List.range element_count).map (fun i =>
    let byte_index := i / 8
    let bit_index := i % 8
    let left_shift_amount := 7 - bit_index
    let mask := 1 <<< left_shift_amount
    let binary_value : Bool :=
      ((source.getD byte_index 0 &&& mask) >>> left_shift_amount) != 0
    if binary_value then color1 else color0)

/-- The total element count actually used by the runtime decoders: in
`decode_to_vector` / `decode_into_pointer` the typed count never throws
(the `type = 2` branch delegates with `type ≠ 0`). -/
def element_count_total (s : Nat) (head : Header) : Nat :=
  if head.type = 2 then head.width * head.height
  else head.bit_count / 8 / s

/-- The eight bytes of a 64-bit word, lowest address first. -/
def bytes_of_word (w : Nat) : List Nat :=
  (List.range 8).map (fun i => w / 256 ^ i % 256)

/-- The payload as a byte sequence: `reinterpret_cast<const uint8_t*>(&source[3])`. -/
def payload_bytes (source : List Nat) : List Nat :=
  (source.drop 3).flatMap bytes_of_word

/-- `inliner::decode_to_vector` with `s = sizeof(user_type)`; output
elements are the byte groups written into the vector.  For `type = 2`
the palette width is `s` (the C++ uses `constexpr int bpp =
sizeof(user_type)`), for other kinds `element_count * s` payload bytes
are copied verbatim. -/
def decode_to_vector (s : Nat) (source : List Nat) : List (List Nat) :=
  let head := get_header source
  let n := element_count_total s head
  let data := payload_bytes source
  if head.type = 2 then
    let p := get_sized_color_pair s head
    reconstruct n data p.1 p.2
  else
    (List.range n).map (fun j => (List.range s).map (fun k => data.getD (j * s + k) 0))

/-- `inliner::decode_into_pointer`: identical computation to
`decode_to_vector`, the destination being caller storage. -/
def decode_into_pointer (s : Nat) (source : List Nat) : List (List Nat) :=
  let head := get_header source
  let n := element_count_total s head
  let data := payload_bytes source
  if head.type = 2 then
    let p := get_sized_color_pair s head
    reconstruct n data p.1 p.2
  else
    (List.range n).map (fun j => (List.range s).map (fun k => data.getD (j * s + k) 0))

/-- `inliner::decode_to_array` with `s = sizeof(user_type)` and the
header a compile-time value.  The two `static_assert`s (positive element
count; `sizeof(user_type) == head.bpp` in the `type = 2` branch) are
modelled as `none`.  In the `type = 2` branch the index plane is the
first `get_byte_count_from_bit_count` payload bytes and the palette uses
`head.bpp`. -/
def decode_to_array (s : Nat) (head : Header) (source : List Nat) :
    Option (List (List Nat)) :=
  let n := element_count_total s head
  if n = 0 then none
  else if head.type = 2 then
    if s = head.bpp then
      let byte_count := get_byte_count_from_bit_count head.bit_count
      let interm := (payload_bytes source).take byte_count
      let p := get_sized_color_pair head.bpp head
      some (reconstruct n interm p.1 p.2)
    else none
  else
    some ((List.range n).map (fun j =>
      (List.range s).map (fun k => (payload_bytes source).getD (j * s + k) 0)))

/-- C4: for every header whose kind is not `Generic`, the type-agnostic
element count is `width * height`, and in particular it is `0` whenever
one of the dimensions is `0`. -/
theorem get_element_count_eq_width_mul_height (head : Header)
    (h : head.type ≠ 0) :
    get_element_count head = some (head.width * head.height) ∧
    (head.width = 0 ∨ head.height = 0 → get_element_count head = some 0) := by
  refine ⟨by simp [get_element_count, h], ?_⟩
  rintro (h0 | h0) <;> simp [get_element_count, h, h0]

theorem get_element_count_eq_width_mul_height_witness :
    get_element_count { type := 1, width := 0, height := 5 } = some 0 :=
  (get_element_count_eq_width_mul_height
    { type := 1, width := 0, height := 5 } (by decide)).2 (Or.inl rfl)

/-- C5: for every `Generic` header the type-agnostic element count fails
(modelled as `none`); it never returns a guessed value. -/
theorem get_element_count_generic_fails (head : Header)
    (h : head.type = 0) :
    get_element_count head = none := by
  simp [get_element_count, h]

theorem get_element_count_generic_fails_witness :
    get_element_count { bit_count := 800 } = none :=
  get_element_count_generic_fails { bit_count := 800 } rfl

/-- C3: the typed element count is `width * height` for
`DualColorImage` (the element size plays no role), and
`(bit_count / 8) / s` in truncating division for `Generic` and `Image`
headers, for every element size `s > 0`. -/
theorem get_element_count_typed_spec (head : Header) (s : Nat)
    (_hs : 0 < s) :
    (head.type = 2 →
      get_element_count_typed s head = some (head.width * head.height)) ∧
    (head.type = 0 ∨ head.type = 1 →
      get_element_count_typed s head = some (head.bit_count / 8 / s)) := by
  constructor
  · intro h2
    simp [get_element_count_typed, get_element_count, h2]
  · rintro (h0 | h1)
    · simp [get_element_count_typed, h0]
    · simp [get_element_count_typed, h1]

theorem get_element_count_typed_spec_witness :
    get_element_count_typed 8 { type := 0, bit_count := 71 } = some 1 :=
  ((get_element_count_typed_spec { type := 0, bit_count := 71 } 8
    (by decide)).2 (Or.inl rfl)).trans (by decide)

/-- C10: a header whose kind byte holds an unrecognized value (neither
0, 1 nor 2) is accepted by the type-agnostic element count, which
returns `width * height` just as for the image kinds, although
`is_image` is `false` on the same word sequence. -/
theorem unknown_kind_element_count (source : List Nat)
    (h0 : (get_header source).type ≠ 0)
    (h1 : (get_header source).type ≠ 1)
    (h2 : (get_header source).type ≠ 2) :
    get_element_count (get_header source) =
      some ((get_header source).width * (get_header source).height) ∧
    is_image source = false := by
  constructor
  · simp [get_element_count, h0]
  · have ht : (get_header source).type = source.getD 0 0 % 256 := by
      simp [get_header]
    rw [ht] at h1 h2
    simp only [is_image, Bool.or_eq_false_iff, beq_eq_false_iff_ne]
    exact ⟨h1, h2⟩

theorem unknown_kind_element_count_witness :
    get_element_count (get_header [3, 0x50004]) = some 20 ∧
    is_image [3, 0x50004] = false := by
  have h := unknown_kind_element_count [3, 0x50004]
    (by decide) (by decide) (by decide)
  exact ⟨h.1.trans (by decide), h.2⟩

/-- C8: the byte count of the index plane computed from a bit count is
`ceil(bit_count / 8)`; in particular a bit count of 0 yields 0 bytes. -/
theorem get_byte_count_eq_ceil (bit_count : Nat) :
    get_byte_count_from_bit_count bit_count = (bit_count + 7) / 8 := by
  simp only [get_byte_count_from_bit_count]
  split <;> omega

/-- The mask-and-shift selector of `reconstruct` extracts exactly bit
`k` (counting from the least significant bit). -/
lemma mask_shift_eq_testBit (x k : Nat) :
    (((x &&& (1 <<< k)) >>> k) != 0) = x.testBit k := by
  rw [Nat.shiftLeft_eq, one_mul, Nat.and_two_pow, Nat.shiftRight_eq_div_pow,
    Nat.mul_div_cancel _ (Nat.pos_pow_of_pos k (by decide))]
  cases x.testBit k <;> simp

/-- C1: element `i` of the bit-plane reconstruction is `color1` when the
bit at position `7 - i % 8` (from the least-significant bit) of source
byte `i / 8` is set and `color0` otherwise, for an arbitrary output
type; decoding the single index byte `0b10110000` with palette `(A, B)`
yields `[B, A, B, B, A, A, A, A]`. -/
theorem reconstruct_spec {α : Type} (A B : α) :
    (∀ (n : Nat) (src : List Nat) (i : Nat), i < n →
      (reconstruct n src A B)[i]? =
        some (if (src.getD (i / 8) 0).testBit (7 - i % 8) then B else A)) ∧
    reconstruct 8 [176] A B = [B, A, B, B, A, A, A, A] := by
  constructor
  · intro n src i hi
    simp only [reconstruct, List.getElem?_map, List.getElem?_range, hi,
      if_pos, mask_shift_eq_testBit]
    rfl
  · rfl

theorem reconstruct_spec_witness :
    (reconstruct 8 [176] (0 : Nat) 1)[2]? =
      some (if Nat.testBit (([176] : List Nat).getD (2 / 8) 0) (7 - 2 % 8)
        then 1 else 0) :=
  (reconstruct_spec 0 1).1 8 [176] 2 (by decide)

/-- C9: for every header and every `bpp` between 1 and 4, the sized
palette is the first `bpp` stored bytes of each 32-bit packed color, in
stored order (byte `i` is `color / 256 ^ i % 256`), with no reordering
and no arithmetic conversion. -/
theorem get_sized_color_pair_spec (head : Header) (bpp : Nat)
    (h1 : 1 ≤ bpp) (h4 : bpp ≤ 4) :
    get_sized_color_pair bpp head =
      ((List.range bpp).map (fun i => head.color0 / 256 ^ i % 256),
       (List.range bpp).map (fun i => head.color1 / 256 ^ i % 256)) := by
  interval_cases bpp <;>
    simp [get_sized_color_pair, color_bytes4, List.range_succ]

theorem get_sized_color_pair_spec_witness :
    get_sized_color_pair 3 { color0 := 0x04030201, color1 := 0x44332211 } =
      ((List.range 3).map (fun i => 0x04030201 / 256 ^ i % 256),
       (List.range 3).map (fun i => 0x44332211 / 256 ^ i % 256)) :=
  get_sized_color_pair_spec
    { color0 := 0x04030201, color1 := 0x44332211 } 3 (by decide) (by decide)

/-- C6: header parsing is local to the words its kind implies.  If two
word sequences agree on word 0 then: a decoded kind of `0` makes the
headers equal (words 1 and 2 are never consulted); a kind other than `2`
makes them equal once word 1 agrees; agreement up to word 2 always
suffices.  In particular a one-word buffer holding a `Generic` header
parses identically to any extension of it. -/
theorem get_header_word_access (s t : List Nat)
    (h0 : s.getD 0 0 = t.getD 0 0) :
    (s.getD 0 0 % 256 = 0 → get_header s = get_header t) ∧
    (s.getD 0 0 % 256 ≠ 2 → s.getD 1 0 = t.getD 1 0 →
      get_header s = get_header t) ∧
    (s.getD 1 0 = t.getD 1 0 → s.getD 2 0 = t.getD 2 0 →
      get_header s = get_header t) ∧
    (∀ (w : Nat) (rest : List Nat), w % 256 = 0 →
      get_header [w] = get_header (w :: rest)) := by
  refine ⟨?_, ?_, ?_, ?_⟩
  · intro hz
    rw [h0] at hz
    simp only [get_header]
    rw [h0, hz]
    simp
  · intro hne h1
    rw [h0] at hne
    simp only [get_header]
    rw [h0, h1, if_neg hne, if_neg hne]
  · intro h1 h2
    simp only [get_header]
    rw [h0, h1, h2]
  · intro w rest hw
    simp [get_header, hw]

theorem get_header_word_access_witness :
    get_header [512] = get_header [512, 7, 9] :=
  (get_header_word_access [512] [512, 7, 9] rfl).1 (by decide)

/-- A contiguous `s`-byte slice read through `getD` is the literal
sublist when the data is long enough. -/
lemma range_map_getD_eq_drop_take (data : List Nat) (j s : Nat)
    (h : (j + 1) * s ≤ data.length) :
    (List.range s).map (fun k => data.getD (j * s + k) 0) =
      (data.drop (j * s)).take s := by
  have hs : j * s + s = (j + 1) * s := by ring
  apply List.ext_getElem
  · simp only [List.length_map, List.length_range, List.length_take,
      List.length_drop]
    omega
  · intro k hk1 hk2
    simp only [List.length_map, List.length_range] at hk1
    have hb : j * s + k < data.length := by omega
    simp only [List.getElem_map, List.getElem_range, List.getElem_take,
      List.getElem_drop]
    rw [List.getD_eq_getElem?_getD, List.getElem?_eq_getElem hb]
    rfl

/-- C7: for a non-`DualColorImage` kind every decode copies the payload
bytes, which start at word 3, verbatim into the output: output element
`j` is payload bytes `[j*s, (j+1)*s)`; the vector decode and (when the
element count is positive) the fixed array decode produce the same
output as the pointer decode. -/
theorem decode_verbatim_copy (s : Nat) (source : List Nat)
    (h : (get_header source).type ≠ 2) (j : Nat)
    (hj : j < element_count_total s (get_header source))
    (hlen : (j + 1) * s ≤ (payload_bytes source).length) :
    (decode_into_pointer s source)[j]? =
      some (((payload_bytes source).drop (j * s)).take s) ∧
    decode_to_vector s source = decode_into_pointer s source ∧
    (element_count_total s (get_header source) ≠ 0 →
      decode_to_array s (get_header source) source =
        some (decode_into_pointer s source)) := by
  refine ⟨?_, rfl, ?_⟩
  · simp only [decode_into_pointer]
    rw [if_neg h]
    simp only [List.getElem?_map, List.getElem?_range, hj, if_pos]
    exact congrArg some (range_map_getD_eq_drop_take _ _ _ hlen)
  · intro hn
    simp only [decode_to_array, decode_into_pointer]
    rw [if_neg hn, if_neg h, if_neg h]

theorem decode_verbatim_copy_witness :
    (decode_into_pointer 3
      [0x0000003000000301, 0x10002, 0, 0x605040302010])[1]? =
      some [0x40, 0x50, 0x60] ∧
    decode_to_vector 3 [0x0000003000000301, 0x10002, 0, 0x605040302010] =
      decode_into_pointer 3
        [0x0000003000000301, 0x10002, 0, 0x605040302010] ∧
    decode_to_array 3
      (get_header [0x0000003000000301, 0x10002, 0, 0x605040302010])
      [0x0000003000000301, 0x10002, 0, 0x605040302010] =
      some (decode_into_pointer 3
        [0x0000003000000301, 0x10002, 0, 0x605040302010]) := by
  have h := decode_verbatim_copy 3
    [0x0000003000000301, 0x10002, 0, 0x605040302010]
    (by decide) 1 (by decide) (by decide)
  exact ⟨h.1.trans (by decide), h.2.1, h.2.2 (by decide)⟩

/-- C2 counterexample: a `DualColorImage` word sequence with `bpp = 1`
decoded into 4-byte elements by the vector and pointer decodes does not
fail: it silently produces four 4-byte elements, using `sizeof(T) = 4`
as the palette width. -/
theorem mismatch_counterexample :
    (get_header
      [0x0000000800000102, 0x20002, 0x0000000200000001, 0xF0]).type = 2 ∧
    (get_header
      [0x0000000800000102, 0x20002, 0x0000000200000001, 0xF0]).bpp = 1 ∧
    decode_to_vector 4
      [0x0000000800000102, 0x20002, 0x0000000200000001, 0xF0] =
      [[2, 0, 0, 0], [2, 0, 0, 0], [2, 0, 0, 0], [2, 0, 0, 0]] ∧
    decode_into_pointer 4
      [0x0000000800000102, 0x20002, 0x0000000200000001, 0xF0] =
      [[2, 0, 0, 0], [2, 0, 0, 0], [2, 0, 0, 0], [2, 0, 0, 0]] :=
  ⟨rfl, rfl, by decide, by decide⟩

/-- C2 (amended): when the element size differs from `bpp` on a
`DualColorImage`, only the fixed-capacity array decode fails (its
compile-time assertion, modelled as `none`); the vector and pointer
decodes perform no such check and produce reconstructed output whose
palette is the first `sizeof(T)` bytes of each color. -/
theorem mismatch_amended (s : Nat) (head : Header) (source : List Nat)
    (h2 : head.type = 2) (hs : s ≠ head.bpp) :
    decode_to_array s head source = none ∧
    ((get_header source).type = 2 →
      decode_to_vector s source =
        reconstruct (element_count_total s (get_header source))
          (payload_bytes source)
          ((color_bytes4 (get_header source).color0).take s)
          ((color_bytes4 (get_header source).color1).take s) ∧
      decode_into_pointer s source = decode_to_vector s source) := by
  constructor
  · simp [decode_to_array, h2, hs]
  · intro hg
    constructor
    · simp only [decode_to_vector, get_sized_color_pair]
      rw [if_pos hg]
    · rfl

theorem mismatch_amended_witness :
    decode_to_array 4
      { type := 2, bpp := 1, bit_count := 8, width := 2, height := 2,
        color0 := 1, color1 := 2 }
      [0x0000000800000102, 0x20002, 0x0000000200000001, 0xF0] = none :=
  (mismatch_amended 4
    { type := 2, bpp := 1, bit_count := 8, width := 2, height := 2,
      color0 := 1, color1 := 2 }
    [0x0000000800000102, 0x20002, 0x0000000200000001, 0xF0]
    (by decide) (by decide)).1

end Inliner
